import Mathlib

/-!
Verification of the budget-gated multi-stage qualification pipeline of the
DuPont Tedlar lead-generation repository.

The Python sources are shallowly embedded: Python floats are modelled as
rationals, dictionaries as association lists, file directories as lists of
file contents, and the nondeterministic inputs of a stage (parsed LLM output,
generated UUIDs, random names) as explicit parameters.  Each definition
carries a doc comment naming the source function it embeds.
-/

/-- Helper for `strContains`: does `sub` occur as a prefix of any suffix. -/
def strContainsGo (sub : List Char) : List Char → Bool
  | [] => sub.isEmpty
  | c :: rest => sub.isPrefixOf (c :: rest) || strContainsGo sub rest

/-- Model of the Python expression `sub in s` on strings (substring test),
used by `log_token_usage` in src/llm/llm_client.py to dispatch on the model
name.  Character-list level so that concrete instances reduce. -/
def strContains (s sub : String) : Bool :=
  strContainsGo sub.data s.data

/-- Model of the Python expression `s.startswith(p)` (character prefix test),
used by the placeholder-company filters in
src/outreach/message_generation.py and
src/data_processing/stakeholder_identification.py. -/
def pyStartsWith (s p : String) : Bool := p.data.isPrefixOf s.data

/-- Model of Python `s[-n:]` character slicing, used by
`load_qualified_companies` to take the last 8 characters of a file stem. -/
def lastChars (n : Nat) (l : List Char) : List Char := l.drop (l.length - n)

/-- Model of Python `s.strip()` at the character level (drop leading and
trailing whitespace), used by the company-name dedup key in
src/data_processing/company_analysis.py. -/
def pyStripChars (l : List Char) : List Char :=
  ((l.dropWhile Char.isWhitespace).reverse.dropWhile Char.isWhitespace).reverse

/-- Model of Python `round(x, 1)`: round to one decimal, ties to even
(Python 3 ties-to-even rounding), as applied by `calculate_lead_score` in
src/utils/lead_scoring.py. -/
def roundHalfToEven (q : ℚ) : ℤ :=
  if q - ⌊q⌋ < 1/2 then ⌊q⌋
  else if q - ⌊q⌋ > 1/2 then ⌊q⌋ + 1
  else if 2 ∣ ⌊q⌋ then ⌊q⌋ else ⌊q⌋ + 1

/-- One-decimal rounding built from `roundHalfToEven`. -/
def round1 (q : ℚ) : ℚ := (roundHalfToEven (q * 10) : ℚ) / 10

/-- Stable insertion step for `insSort`. -/
def insertOrd (le : α → α → Bool) (x : α) : List α → List α
  | [] => [x]
  | y :: ys => if le x y then x :: y :: ys else y :: insertOrd le x ys

/-- Stable sort modelling Python `sorted(..., key=...)`: `le` is the
(total, decidable) key comparison.  Only membership in the sorted output is
used by the theorems below, which is invariant under the choice of stable
sorting algorithm. -/
def insSort (le : α → α → Bool) : List α → List α
  | [] => []
  | x :: xs => insertOrd le x (insSort le xs)

/-- Budget split from config/config.py `BUDGET_ALLOCATION`
(percentages of the 200 USD total). -/
def BUDGET_ALLOCATION : List (String × ℚ) :=
  [("event_research", 0.10), ("company_analysis", 0.25),
   ("stakeholder_identification", 0.15), ("outreach_generation", 0.30),
   ("buffer", 0.20)]

/-- Per-1K-token chat-model prices from config/config.py `TOKEN_PRICING`
(input rate, output rate).  The perplexity entry has per-request pricing and
is handled separately in `log_token_usage`. -/
def TOKEN_PRICING : List (String × ℚ × ℚ) :=
  [("gpt-3.5-turbo", (0.0005, 0.0015)), ("gpt-4-turbo", (0.01, 0.03)),
   ("claude-3-opus", (0.015, 0.075))]

/-- Per-request price of the perplexity provider from `TOKEN_PRICING`. -/
def perplexityRequestPrice : ℚ := 0.01

/-- Ledger entry written by `log_token_usage` in src/llm/llm_client.py
(the timestamp field is omitted: no embedded computation reads it). -/
structure UsageRecord where
  model : String
  prompt_tokens : ℕ
  completion_tokens : ℕ
  input_cost_usd : ℚ
  output_cost_usd : ℚ
  total_cost_usd : ℚ
  module : String
  operation : String
deriving DecidableEq, Repr

/-- Embeds `log_token_usage` (src/llm/llm_client.py lines 27-80): computes
the cost of a call from the model identifier and appends a `UsageRecord`
(the append itself is modelled by consing the result onto a ledger list). -/
def log_token_usage (model : String) (prompt_tokens completion_tokens : ℕ)
    (module operation : String) : UsageRecord :=
  if strContains model "gpt-" then
    let p := (TOKEN_PRICING.lookup model).getD (0.01, 0.03)
    let ic := (prompt_tokens : ℚ) / 1000 * p.1
    let oc := (completion_tokens : ℚ) / 1000 * p.2
    ⟨model, prompt_tokens, completion_tokens, ic, oc, ic + oc, module, operation⟩
  else if strContains model "claude" then
    let p := (TOKEN_PRICING.lookup model).getD (0.015, 0.075)
    let ic := (prompt_tokens : ℚ) / 1000 * p.1
    let oc := (completion_tokens : ℚ) / 1000 * p.2
    ⟨model, prompt_tokens, completion_tokens, ic, oc, ic + oc, module, operation⟩
  else if strContains model "perplexity" then
    ⟨model, prompt_tokens, completion_tokens, 0, 0, perplexityRequestPrice,
     module, operation⟩
  else
    ⟨model, prompt_tokens, completion_tokens, 0, 0, 0, module, operation⟩

/-- Total ledger spend: the `total_cost_usd` sum computed by
`get_current_usage` in src/utils/cost_tracker.py. -/
def totalSpend (ledger : List UsageRecord) : ℚ :=
  (ledger.map (fun r => r.total_cost_usd)).sum

/-- Per-module ledger spend: the groupby-module `total_cost_usd` sum of
`get_current_usage` (missing module defaults to 0). -/
def moduleSpend (ledger : List UsageRecord) (module : String) : ℚ :=
  ((ledger.filter (fun r => r.module == module)).map
    (fun r => r.total_cost_usd)).sum

/-- The non-buffer module names, as iterated by `is_budget_available`
(`for m in BUDGET_ALLOCATION.keys() if m != "buffer"`). -/
def nonBufferModules : List String :=
  (BUDGET_ALLOCATION.filter (fun p => !(p.1 == "buffer"))).map (fun p => p.1)

/-- Embeds `is_budget_available` (src/utils/cost_tracker.py lines 131-165):
approve when the module allocation covers its spend plus the estimate, else
approve when the remaining shared buffer covers the estimate, where buffer
use is computed as total spend minus the sum of the non-buffer module
spends. -/
def is_budget_available (ledger : List UsageRecord) (module : String)
    (estimated_cost : ℚ) : Bool :=
  let module_budget := 200 * ((BUDGET_ALLOCATION.lookup module).getD 0)
  let module_spent := moduleSpend ledger module
  if module_spent + estimated_cost ≤ module_budget then true
  else
    let buffer_allocation := 200 * ((BUDGET_ALLOCATION.lookup "buffer").getD 0)
    let buffer_used := totalSpend ledger -
      (nonBufferModules.map (fun m => moduleSpend ledger m)).sum
    decide (buffer_allocation - buffer_used ≥ estimated_cost)

/-- Criterion weights from config/config.py `LEAD_SCORING["criteria"]`. -/
def LEAD_SCORING_criteria : List (String × ℚ) :=
  [("industry_relevance", 0.30), ("product_fit", 0.25),
   ("decision_maker_access", 0.20), ("current_engagement", 0.15),
   ("market_presence", 0.10)]

/-- Thresholds from config/config.py `LEAD_SCORING["thresholds"]`. -/
def LEAD_SCORING_thresholds : List (String × ℚ) :=
  [("minimum_qualification", 6.0), ("high_priority", 8.0), ("exceptional", 9.0)]

/-- Embeds `calculate_lead_score` (src/utils/lead_scoring.py lines 11-44):
fold the configured criteria, accumulating weighted score and applied
weight for each criterion present in the score map, then the final
expression `weighted_score / total_weight_applied * 10.0` (note the
literal times-10 factor of the source) when any weight applied, rounded to one
decimal. -/
def calculate_lead_score (scores : List (String × ℚ)) : ℚ :=
  let acc := LEAD_SCORING_criteria.foldl
    (fun acc cw =>
      match scores.lookup cw.1 with
      | some s => (acc.1 + s * cw.2, acc.2 + cw.2)
      | none => acc)
    ((0 : ℚ), (0 : ℚ))
  let ws := if acc.2 > 0 then acc.1 / acc.2 * 10 else acc.1
  round1 ws

/-- Embeds `get_lead_priority` (src/utils/lead_scoring.py lines 46-68):
threshold comparisons in descending order, inclusive lower bounds. -/
def get_lead_priority (score : ℚ) : String :=
  if score ≥ (LEAD_SCORING_thresholds.lookup "exceptional").getD 0 then
    "exceptional"
  else if score ≥ (LEAD_SCORING_thresholds.lookup "high_priority").getD 0 then
    "high_priority"
  else if score ≥
      (LEAD_SCORING_thresholds.lookup "minimum_qualification").getD 0 then
    "qualified"
  else
    "unqualified"

/-- Numeric rank of the company lead-priority tiers in the order given by
the specification glossary (unqualified, qualified, high_priority,
exceptional); used only to state tier monotonicity. -/
def tierRank : String → ℕ
  | "qualified" => 1
  | "high_priority" => 2
  | "exceptional" => 3
  | _ => 0

/-- Embeds the priority classification inside `prioritize_gatherings`
(src/data_processing/event_research.py lines 271-277): at least 8.0 high,
at least 6.0 medium, else low. -/
def gathering_priority (score : ℚ) : String :=
  if score ≥ 8.0 then "high"
  else if score ≥ 6.0 then "medium"
  else "low"

/-- Numeric rank of the gathering tiers (low, medium, high); used only to
state tier monotonicity. -/
def gatheringRank : String → ℕ
  | "medium" => 1
  | "high" => 2
  | _ => 0

/-- A gathering dictionary as built by `discover_industry_gatherings`
(src/data_processing/event_research.py); `priority` is absent until
`prioritize_gatherings` assigns it. -/
structure Gathering where
  name : String
  gtype : String
  date : String
  location : String
  description : String
  website : String
  relevance_score : ℚ
  relevance_rationale : String
  source : String
  priority : Option String := none
deriving DecidableEq, Repr

/-- A curated seed event from config/config.py
`TEDLAR_CONTEXT["key_industry_events_2024"]`. -/
structure SeedEvent where
  name : String
  date : String
  location : String
  attendees : String
  relevance : String
deriving DecidableEq, Repr

/-- A curated seed association from config/config.py
`TEDLAR_CONTEXT["key_industry_associations"]`. -/
structure SeedAssociation where
  name : String
  members : String
  relevance : String
deriving DecidableEq, Repr

/-- The four curated events of `TEDLAR_CONTEXT["key_industry_events_2024"]`. -/
def key_industry_events_2024 : List SeedEvent :=
  [⟨"ISA International Sign Expo 2024", "April 10-12, 2024", "Orlando, FL",
    "20,000+ professionals",
    "Premier event for sign, graphics, and visual communications industry"⟩,
   ⟨"PRINTING United Expo 2024", "September 10-12, 2024", "Las Vegas, NV",
    "18,000+ professionals",
    "Comprehensive printing industry event spanning all markets and technologies"⟩,
   ⟨"FESPA Global Print Expo 2024", "May 21-24, 2024", "Amsterdam, Netherlands",
    "15,000+ international visitors",
    "International exhibition for screen, digital, and textile printing"⟩,
   ⟨"Graphics Pro Expo 2024", "Various (6 regional events throughout 2024)",
    "Multiple US cities", "2,000-3,500 per regional event",
    "Regional focus with education and product showcase for graphics professionals"⟩]

/-- The six curated associations of
`TEDLAR_CONTEXT["key_industry_associations"]`. -/
def key_industry_associations : List SeedAssociation :=
  [⟨"International Sign Association (ISA)", "2,300+ sign and graphics companies",
    "Primary trade association for sign industry professionals"⟩,
   ⟨"PRINTING United Alliance", "7,000+ companies across printing technologies",
    "Created from merger of SGIA and PIA, representing broad printing industry"⟩,
   ⟨"Society for Experiential Graphic Design (SEGD)",
    "2,000+ professionals across multiple disciplines",
    "Focus on architectural, wayfinding, and experiential graphics"⟩,
   ⟨"FESPA", "37 national associations and thousands of company members",
    "Global federation with strong European presence"⟩,
   ⟨"Specialty Graphic Imaging Association (SGIA)",
    "Now part of PRINTING United Alliance",
    "Historical focus on specialty graphics, including screen printing"⟩,
   ⟨"National Association of Sign Supply Distributors (NASSD)",
    "Leading distributors of sign supplies and materials",
    "Key channel partners for material distribution"⟩]

/-- The curated seed events converted to gathering dictionaries exactly as in
`discover_industry_gatherings` (fixed relevance 9.0). -/
def seedEventGatherings : List Gathering :=
  key_industry_events_2024.map (fun e =>
    { name := e.name, gtype := "event", date := e.date, location := e.location,
      description := e.relevance, website := "", relevance_score := 9.0,
      relevance_rationale := "Major industry event with " ++ e.attendees ++
        " focused on " ++ e.relevance,
      source := "Pre-researched data" })

/-- The curated seed associations converted to gathering dictionaries exactly
as in `discover_industry_gatherings` (fixed relevance 8.5). -/
def seedAssociationGatherings : List Gathering :=
  key_industry_associations.map (fun a =>
    { name := a.name, gtype := "association", date := "Ongoing",
      location := "Various", description := a.relevance, website := "",
      relevance_score := 8.5,
      relevance_rationale := "Major industry association with " ++ a.members ++
        " focused on " ++ a.relevance,
      source := "Pre-researched data" })

/-- Model of Python `s.lower()` at the character level. -/
def pyLower (s : String) : String := String.mk (s.data.map Char.toLower)

/-- A candidate gathering parsed from the real-time-search response, with the
optional keys `discover_industry_gatherings` probes (`name` is accessed
unconditionally by the duplicate check, so it is a required field). -/
structure DiscoveredGathering where
  name : String
  gtype : Option String := none
  date : Option String := none
  location : Option String := none
  description : Option String := none
  website : Option String := none
  relevance_score : Option ℚ := none
  why_relevant : Option String := none
deriving DecidableEq, Repr

/-- The organizational keywords `discover_industry_gatherings` matches
against the lowercased name of a discovered item to classify it. -/
def associationKeywords : List String :=
  ["association", "organization", "society", "institute", "federation",
   "alliance"]

/-- Classification and normalization of one discovered item, following
`discover_industry_gatherings` (src/data_processing/event_research.py lines
126-144). -/
def mkDiscoveredGathering (d : DiscoveredGathering) : Gathering :=
  let gtype0 := pyLower (d.gtype.getD "")
  let gtype :=
    if gtype0 == "" then
      if associationKeywords.any (fun kw => strContains (pyLower d.name) kw)
      then "association" else "event"
    else gtype0
  { name := d.name, gtype := gtype,
    date := d.date.getD (if gtype == "association" then "Ongoing" else ""),
    location := d.location.getD (if gtype == "association" then "Various" else ""),
    description := d.description.getD "", website := d.website.getD "",
    relevance_score := d.relevance_score.getD 0,
    relevance_rationale := d.why_relevant.getD "",
    source := "Perplexity discovery" }

/-- The merge loop of `discover_industry_gatherings`: append each discovered
item unless a gathering of the same name is already present. -/
def mergeDiscovered (acc : List Gathering) (ds : List DiscoveredGathering) :
    List Gathering :=
  ds.foldl
    (fun acc d =>
      if acc.any (fun g => g.name == d.name) then acc
      else acc ++ [mkDiscoveredGathering d])
    acc

/-- Embeds `discover_industry_gatherings` (src/data_processing/event_research.py
lines 28-150).  The real-time-search call and its JSON extraction are
summarized by the `discovered` parameter (the parsed candidate list; empty on
parse failure).  Note the source returns the empty list as soon as the budget
check denies the 0.02 USD search, before the curated seed data is added. -/
def discover_industry_gatherings (ledger : List UsageRecord)
    (discovered : List DiscoveredGathering) : List Gathering :=
  if is_budget_available ledger "event_research" 0.02 = false then []
  else
    mergeDiscovered (seedEventGatherings ++ seedAssociationGatherings) discovered

/-- Embeds `prioritize_gatherings` (src/data_processing/event_research.py
lines 251-283): sort by relevance score descending, then assign the
threshold-based priority to each gathering. -/
def prioritize_gatherings (gatherings : List Gathering) : List Gathering :=
  (insSort (fun a b => decide (b.relevance_score ≤ a.relevance_score)) gatherings).map
    (fun g => { g with priority := some (gathering_priority g.relevance_score) })

/-- Embeds the control flow of `run_event_association_research`
(src/data_processing/event_research.py lines 348-398): discover, exit with no
output when nothing was discovered, else (optionally limit,) analyze each
gathering, prioritize, and persist.  The per-gathering relevance pass
`analyze_gathering_relevance` is summarized by the `analyze` parameter, and
the persisted output is the returned list (`none` models the early exit that
writes nothing). -/
def run_event_association_research (ledger : List UsageRecord)
    (discovered : List DiscoveredGathering) (analyze : Gathering → Gathering)
    (limit : Option ℕ) : Option (List Gathering) :=
  let gatherings := discover_industry_gatherings ledger discovered
  if gatherings.isEmpty then none
  else
    let gs := match limit with
      | some n => if 0 < n then gatherings.take n else gatherings
      | none => gatherings
    some (prioritize_gatherings (gs.map analyze))

/-- A discovered company as fed into the deduplication step of
`run_company_analysis` (src/data_processing/company_analysis.py); only the
fields that step reads are modelled, plus `id` so that distinct duplicates
stay distinguishable. -/
structure CompanyRec where
  id : String
  name : String
  qualification_score : Option ℚ := none
deriving DecidableEq, Repr

/-- The dedup key `company["name"].strip().lower()` of `run_company_analysis`,
at the character level. -/
def normName (s : String) : List Char := (pyStripChars s.data).map Char.toLower

/-- The score read `company.get("qualification_score", 0)` used by the dedup
comparison. -/
def scoreD (c : CompanyRec) : ℚ := c.qualification_score.getD 0

/-- One step of the `unique_companies` dictionary update in
`run_company_analysis` (lines 669-681): a fresh key is appended at the end
(Python dict insertion order); an existing key keeps its entry unless the
newcomer has a strictly higher score, in which case the entry is replaced in
place. -/
def insertCo (acc : List (List Char × CompanyRec)) (k : List Char)
    (c : CompanyRec) : List (List Char × CompanyRec) :=
  match acc with
  | [] => [(k, c)]
  | (k', c') :: rest =>
    if k' = k then
      (if scoreD c' < scoreD c then (k, c) else (k', c')) :: rest
    else
      (k', c') :: insertCo rest k c

/-- Embeds the cross-gathering company deduplication of
`run_company_analysis`: fold the companies through the keyed dictionary and
keep `list(unique_companies.values())`. -/
def dedup_companies (cs : List CompanyRec) : List CompanyRec :=
  (cs.foldl (fun acc c => insertCo acc (normName c.name) c) []).map
    (fun p => p.2)

/-- The on-disk JSON content of one company file, with the optional keys
`load_qualified_companies` probes. -/
structure CompanyFile where
  name : Option String := none
  id : Option String := none
  lead_priority : Option String := none
  qualification_score : Option ℚ := none
deriving DecidableEq, Repr

/-- A company record after `load_qualified_companies` repaired it:
`name` and `id` are always present. -/
structure LoadedCompany where
  name : String
  id : String
  lead_priority : Option String := none
  qualification_score : Option ℚ := none
deriving DecidableEq, Repr

/-- The synthesized placeholder name `f"Company-{company_file.stem[-8:]}"`
of `load_qualified_companies`. -/
def synthCompanyName (stem : String) : String :=
  String.mk ("Company-".data ++ lastChars 8 stem.data)

/-- Per-file repair of `load_qualified_companies`
(src/data_processing/stakeholder_identification.py lines 107-126): a missing,
empty or literally "Unknown Company" name is replaced by the synthesized
placeholder; a missing id is replaced by a fresh UUID (`fresh`). -/
def load_company_file (fresh : String) (stem : String) (data : CompanyFile) :
    LoadedCompany :=
  let name := match data.name with
    | none => synthCompanyName stem
    | some n =>
      if n = "" ∨ n = "Unknown Company" then synthCompanyName stem else n
  let id := match data.id with
    | none => fresh
    | some i => i
  { name := name, id := id, lead_priority := data.lead_priority,
    qualification_score := data.qualification_score }

/-- The nested-conditional priority index of the sort in
`load_qualified_companies` (lines 130-138). -/
def companyPriorityIdx (p : Option String) : ℕ :=
  if p == some "exceptional" then 0
  else if p == some "high_priority" then 1
  else if p == some "qualified" then 2
  else 3

/-- The sort key comparison of `load_qualified_companies`:
ascending lexicographic on (priority index, negated score). -/
def companyLe (a b : LoadedCompany) : Bool :=
  decide (companyPriorityIdx a.lead_priority < companyPriorityIdx b.lead_priority ∨
    (companyPriorityIdx a.lead_priority = companyPriorityIdx b.lead_priority ∧
      -(a.qualification_score.getD 0) ≤ -(b.qualification_score.getD 0)))

/-- Embeds `load_qualified_companies`: read every company file (given as
(file stem, content) pairs), repair name and id, and sort by priority then
score descending.  `freshIds` supplies the UUIDs `uuid.uuid4()` would
generate. -/
def load_qualified_companies (freshIds : ℕ → String)
    (files : List (String × CompanyFile)) : List LoadedCompany :=
  insSort companyLe
    (files.enum.map (fun p => load_company_file (freshIds p.1) p.2.1 p.2.2))

/-- A JSON-ish value inside a raw stakeholder object returned by the model.
String-typed numbers are not modelled: every score probed by the claims and
by the fallback data is a numeric literal. -/
inductive PyVal where
  | str (s : String)
  | num (q : ℚ)
  | arr (xs : List String)
deriving DecidableEq, Repr

/-- Python truthiness for the modelled values, as used by the guards
`if field in stakeholder and stakeholder[field]`. -/
def truthy : PyVal → Bool
  | .str s => !(s == "")
  | .num q => !(q == 0)
  | .arr xs => !xs.isEmpty

/-- A raw stakeholder object: an association list of its JSON keys. -/
def RawStakeholder : Type := List (String × PyVal)

/-- First present and truthy value among the alternative key spellings, as in
the per-field probing loops of `identify_stakeholders_for_company`
(src/data_processing/stakeholder_identification.py lines 459-553). -/
def probe (st : RawStakeholder) (keys : List String) : Option PyVal :=
  keys.findSome? (fun k =>
    match List.lookup k st with
    | some v => if truthy v then some v else none
    | none => none)

/-- String-valued probe (the probed fields hold strings in every modelled
input; a non-string hit is not modelled). -/
def probeStr (st : RawStakeholder) (keys : List String) : Option String :=
  match probe st keys with
  | some (.str s) => some s
  | _ => none

/-- Score probe: the loop additionally converts with `float(...)`, breaking
on the first truthy value that converts (numeric in this model). -/
def probeScore (st : RawStakeholder) (keys : List String) : Option ℚ :=
  keys.findSome? (fun k =>
    match List.lookup k st with
    | some (.num q) => if truthy (.num q) then some q else none
    | _ => none)

/-- Rationale probe: a list value is joined with "; ". -/
def probeRationale (st : RawStakeholder) (keys : List String) : String :=
  match probe st keys with
  | some (.str s) => s
  | some (.arr xs) => String.intercalate "; " xs
  | _ => ""

/-- List-field probe (responsibilities, benefits): break on the first
present key; a list is taken as is, a string is wrapped in a singleton,
anything else leaves the default empty list. -/
def probeList (st : RawStakeholder) (keys : List String) : List String :=
  ((keys.findSome? (fun k =>
    (List.lookup k st).map (fun v =>
      match v with
      | .arr xs => xs
      | .str s => [s]
      | .num _ => ([] : List String)))).getD [])

/-- Plain `stakeholder.get(key, default)` for string fields. -/
def getStrD (st : RawStakeholder) (key : String) (default : String) : String :=
  match List.lookup key st with
  | some (.str s) => s
  | _ => default

/-- The alternative key spellings for each logical field, copied from
`identify_stakeholders_for_company`. -/
def nameKeys : List String :=
  ["name", "Name", "contact", "Contact", "person", "Person"]

/-- Key spellings probed for the title field. -/
def titleKeys : List String :=
  ["title", "Title", "jobTitle", "JobTitle", "role", "Role", "position",
   "Position"]

/-- Key spellings probed for the decision-maker score field. -/
def scoreKeys : List String :=
  ["decision_maker_score", "decisionMakerScore", "DecisionMakerScore",
   "score", "Score", "relevance", "Relevance", "priority_score",
   "PriorityScore"]

/-- Key spellings probed for the rationale field. -/
def rationaleKeys : List String :=
  ["rationale", "Rationale", "decision_maker_rationale",
   "decisionMakerRationale", "justification", "Justification", "reason",
   "Reason", "explanation", "Explanation", "JobChallengesAddressed",
   "jobChallengesAddressed"]

/-- Key spellings probed for the LinkedIn URL field. -/
def linkedinKeys : List String :=
  ["linkedin_url", "linkedinUrl", "LinkedinUrl", "linkedin", "Linkedin",
   "linkedInProfile", "LinkedInProfile"]

/-- Key spellings probed for the responsibilities field. -/
def respKeys : List String :=
  ["responsibilities", "Responsibilities", "duties", "Duties", "role_details",
   "RoleDetails"]

/-- Key spellings probed for the influence field. -/
def influenceKeys : List String :=
  ["influence", "Influence", "influenceInPurchasing", "InfluenceInPurchasing"]

/-- Key spellings probed for the benefits field. -/
def benefitKeys : List String :=
  ["relevant_benefits", "relevantBenefits", "tedlarBenefits", "TedlarBenefits",
   "benefits", "Benefits"]

/-- The fields of the company dictionary read by
`identify_stakeholders_for_company`. -/
structure CompanyCtx where
  name : String
  id : Option String := none
  customer_segment : Option String := none
  lead_priority : Option String := none
deriving DecidableEq, Repr

/-- The in-memory enhanced stakeholder dictionary built by
`identify_stakeholders_for_company` (lines 555-571). -/
structure StakeholderRecord where
  id : String
  company_id : String
  company_name : String
  name : String
  title : String
  department : String
  decision_maker_score : ℚ
  decision_maker_rationale : String
  linkedin_url : String
  email : String
  priority : String
  responsibilities : List String
  influence : String
  relevant_benefits : List String
  customer_segment : String
  sales_navigator_query : Option String := none
deriving DecidableEq, Repr

/-- The enhancement of one raw stakeholder object
(src/data_processing/stakeholder_identification.py lines 455-571).  `uuid`
stands for the generated `uuid.uuid4()`; `genName` for the randomized
`generate_name_from_title`, applied to `title_value or "Unknown"` when no
name key is present. -/
def enhanceStakeholder (company : CompanyCtx) (uuid : String)
    (genName : String → String) (st : RawStakeholder) : StakeholderRecord :=
  let title? := probeStr st titleKeys
  let name := match probeStr st nameKeys with
    | some n => n
    | none => genName (title?.getD "Unknown")
  { id := uuid,
    company_id := company.id.getD "",
    company_name := company.name,
    name := name,
    title := title?.getD "Unknown",
    department := getStrD st "department" "",
    decision_maker_score := (probeScore st scoreKeys).getD 7.5,
    decision_maker_rationale := probeRationale st rationaleKeys,
    linkedin_url := (probeStr st linkedinKeys).getD "",
    email := getStrD st "email" "",
    priority := getStrD st "priority" "medium",
    responsibilities := probeList st respKeys,
    influence := (probeStr st influenceKeys).getD "",
    relevant_benefits := probeList st benefitKeys,
    customer_segment := company.customer_segment.getD "" }

/-- The deterministic-by-segment fallback stakeholders of
`identify_stakeholders_for_company` (lines 397-452), as raw objects with the
literal names, titles, scores and rationales of the source (the randomized
LinkedIn URL field is omitted: no claim reads it). -/
def fallback_stakeholders (segment : String) : List RawStakeholder :=
  if segment == "Large Format Print Providers" then
    [[("name", .str "Alex Johnson"), ("title", .str "Operations Director"),
      ("decision_maker_score", .num 9.0),
      ("rationale", .str "Operations Directors at Large Format Print Providers typically oversee production processes and make material sourcing decisions.")],
     [("name", .str "Sam Williams"), ("title", .str "Production Manager"),
      ("decision_maker_score", .num 8.0),
      ("rationale", .str "Production Managers influence material selection based on quality and performance requirements.")]]
  else if segment == "Fleet Graphics Specialists" then
    [[("name", .str "Taylor Reed"), ("title", .str "Fleet Graphics Director"),
      ("decision_maker_score", .num 9.0),
      ("rationale", .str "Fleet Graphics Directors make decisions on materials that ensure longevity of vehicle wraps.")],
     [("name", .str "Jamie Martin"),
      ("title", .str "Product Development Manager"),
      ("decision_maker_score", .num 7.5),
      ("rationale", .str "Product Development Managers evaluate new materials for enhanced performance.")]]
  else
    [[("name", .str "Morgan Smith"), ("title", .str "Production Director"),
      ("decision_maker_score", .num 8.5),
      ("rationale", .str "Production Directors influence material selection based on performance requirements.")],
     [("name", .str "Casey Brown"),
      ("title", .str "Materials Procurement Manager"),
      ("decision_maker_score", .num 7.0),
      ("rationale", .str "Materials Procurement Managers make purchasing decisions based on cost-benefit analysis.")]]

/-- Embeds `identify_stakeholders_for_company` (lines 158-575): return the
empty list as soon as the budget check denies the estimated 0.03 USD;
otherwise take the stakeholders parsed from the model response (`parsed`;
empty when nothing was recoverable), substitute the segment fallbacks when
that list is empty, and enhance each object.  `uuids` supplies the per-object
generated ids. -/
def identify_stakeholders_for_company (ledger : List UsageRecord)
    (company : CompanyCtx) (parsed : List RawStakeholder)
    (genName : String → String) (uuids : ℕ → String) :
    List StakeholderRecord :=
  if is_budget_available ledger "stakeholder_identification" 0.03 = false then
    []
  else
    let stakeholders :=
      if parsed.isEmpty then
        fallback_stakeholders
          (company.customer_segment.getD "Sign Manufacturing Companies")
      else parsed
    stakeholders.enum.map
      (fun p => enhanceStakeholder company (uuids p.1) genName p.2)

/-- The JSON document written for one stakeholder by `save_stakeholder_data`
(src/data_processing/stakeholder_identification.py lines 733-803): the
pydantic `Stakeholder` model dump plus the manually re-added keys. -/
structure SavedStakeholder where
  id : String
  company_id : String
  name : String
  title : String
  department : String
  linkedin_url : String
  email : String
  decision_maker_score : ℚ
  decision_maker_rationale : Option String
  responsibilities : List String
  interests : List String
  sales_navigator_url : Option String
  clay_api_identifier : Option String
  priority : Option String := none
  influence : Option String := none
  relevant_benefits : Option (List String) := none
  company_name : Option String := none
  customer_segment : Option String := none
  sales_navigator_query : Option String := none
deriving DecidableEq, Repr

/-- Embeds the per-stakeholder document construction of
`save_stakeholder_data`.  The source instantiates the pydantic `Stakeholder`
model (src/utils/data_models.py lines 78-110) with the keyword arguments
`relevance_score=` and `relevance_rationale=` — neither is a field of that
model, and pydantic silently drops unknown keyword arguments — so the dumped
document carries the model defaults `decision_maker_score = 0.0` and
`decision_maker_rationale = None`; the manual re-additions afterwards never
touch those two keys.  Writing then reloading the JSON file is the identity
on this document. -/
def save_stakeholder_dict (s : StakeholderRecord) : SavedStakeholder :=
  { id := s.id,
    company_id := s.company_id,
    name := s.name,
    title := s.title,
    department := s.department,
    linkedin_url := s.linkedin_url,
    email := s.email,
    decision_maker_score := 0,
    decision_maker_rationale := none,
    responsibilities := s.responsibilities,
    interests := [],
    sales_navigator_url := none,
    clay_api_identifier := none,
    priority := some s.priority,
    influence := some s.influence,
    relevant_benefits := some s.relevant_benefits,
    company_name := some s.company_name,
    customer_segment := some s.customer_segment,
    sales_navigator_query := s.sales_navigator_query }

/-- The per-record skip condition of `load_prioritized_stakeholders`
(src/outreach/message_generation.py lines 48-58): placeholder company names
and the literal title "Unknown" are excluded. -/
def stakeholderUsable (s : SavedStakeholder) : Bool :=
  !(pyStartsWith (s.company_name.getD "") "Company-" ||
      (s.company_name.getD "") == "Unknown Company") &&
  !(s.title == "Unknown")

/-- The sort key comparison of `load_prioritized_stakeholders`: ascending
lexicographic on (priority index, negated decision-maker score). -/
def stakeholderPriorityIdx (p : Option String) : ℕ :=
  if p == some "high" then 0 else if p == some "medium" then 1 else 2

/-- Key comparison used by the stakeholder sort. -/
def stakeholderLe (a b : SavedStakeholder) : Bool :=
  decide (stakeholderPriorityIdx a.priority < stakeholderPriorityIdx b.priority ∨
    (stakeholderPriorityIdx a.priority = stakeholderPriorityIdx b.priority ∧
      -a.decision_maker_score ≤ -b.decision_maker_score))

/-- Embeds `load_prioritized_stakeholders` (src/outreach/message_generation.py
lines 27-75): read every stakeholder file (given as a list of file
contents), skip unusable records, and sort by priority then score
descending.  The skipped files stay in the input list — nothing deletes
them. -/
def load_prioritized_stakeholders (files : List SavedStakeholder) :
    List SavedStakeholder :=
  insSort stakeholderLe (files.filter stakeholderUsable)

/-- A 20 USD event-research ledger entry, produced by `log_token_usage` for a
2,000,000-prompt-token gpt-4-turbo call (2000 times the 0.01 USD input
rate). -/
def erSpend20 : UsageRecord :=
  log_token_usage "gpt-4-turbo" 2000000 0 "event_research" "initial_discovery"

/-- A 40 USD event-research ledger entry (4,000,000 prompt tokens). -/
def erSpend40 : UsageRecord :=
  log_token_usage "gpt-4-turbo" 4000000 0 "event_research" "relevance_analysis"

/-- A 40 USD entry logged under a module name outside `BUDGET_ALLOCATION`. -/
def miscSpend40 : UsageRecord :=
  log_token_usage "gpt-4-turbo" 4000000 0 "misc" "general"

/-- A 30 USD stakeholder-identification ledger entry. -/
def siSpend30 : UsageRecord :=
  log_token_usage "gpt-4-turbo" 3000000 0 "stakeholder_identification"
    "standard_stakeholder_identification"

/-- Ledger after the 20 USD spend and `n` further 40 USD event-research
spends. -/
def erLedger (n : ℕ) : List UsageRecord :=
  erSpend20 :: List.replicate n erSpend40

/-- A ledger on which `is_budget_available "event_research" 0.02` is denied:
the module allocation (20 USD) is exhausted and the buffer is consumed by
40 USD of spend logged outside the non-buffer modules. -/
def denyLedgerER : List UsageRecord := [erSpend20, miscSpend40]

/-- A ledger on which `is_budget_available "stakeholder_identification" 0.03`
is denied (30 USD module allocation exhausted, buffer consumed). -/
def denyLedgerSI : List UsageRecord := [siSpend30, miscSpend40]

/-- The criterion score map of end-to-end scenario B of the specification. -/
def scenarioB : List (String × ℚ) :=
  [("industry_relevance", 9), ("product_fit", 8), ("decision_maker_access", 7),
   ("current_engagement", 6), ("market_presence", 5)]

/-- A qualified-company context used to exercise
`identify_stakeholders_for_company` on concrete inputs. -/
def sampleCompanyCtx : CompanyCtx :=
  { name := "Avery Dennison Graphics Solutions", id := some "c-001",
    customer_segment := some "Large Format Print Providers",
    lead_priority := some "high_priority" }

/-- A test gathering scored 8.3 (end-to-end scenario A). -/
def testGathering : Gathering :=
  { name := "Test Expo", gtype := "event", date := "2024", location := "NYC",
    description := "d", website := "", relevance_score := 8.3,
    relevance_rationale := "r", source := "Pre-researched data" }

/-- The titles and scores the specification promises for the two
deterministic-by-segment fallback stakeholders (stated from the spec text,
for comparison with the embedded `fallback_stakeholders`). -/
def expectedFallbackPairs (segment : String) : List (String × ℚ) :=
  if segment == "Large Format Print Providers" then
    [("Operations Director", 9.0), ("Production Manager", 8.0)]
  else if segment == "Fleet Graphics Specialists" then
    [("Fleet Graphics Director", 9.0), ("Product Development Manager", 7.5)]
  else
    [("Production Director", 8.5), ("Materials Procurement Manager", 7.0)]

/-- A persisted stakeholder record with the literal title "Unknown", used to
exercise the filter of the outreach loader. -/
def unusableSaved : SavedStakeholder :=
  { id := "s-002", company_id := "c-002", name := "Riley Jones",
    title := "Unknown", department := "", linkedin_url := "", email := "",
    decision_maker_score := 9, decision_maker_rationale := none,
    responsibilities := [], interests := [], sales_navigator_url := none,
    clay_api_identifier := none, priority := some "high", influence := none,
    relevant_benefits := none, company_name := some "Laminex Graphics",
    customer_segment := none, sales_navigator_query := none }

/-- An in-memory stakeholder record whose decision-maker score is 8.5, fed to
the persistence step. -/
def sampleStakeholder85 : StakeholderRecord :=
  { id := "s-001", company_id := "c-001",
    company_name := "Avery Dennison Graphics Solutions",
    name := "Jordan Miller", title := "Operations Director", department := "",
    decision_maker_score := 8.5,
    decision_maker_rationale := "Oversees production material sourcing.",
    linkedin_url := "", email := "", priority := "high",
    responsibilities := ["Production oversight"], influence := "primary",
    relevant_benefits := ["Durability"],
    customer_segment := "Large Format Print Providers" }

/-- Two discovered companies whose names collide after trimming and
lowercasing; the second has the higher initial score. -/
def dupCompanyA : CompanyRec :=
  { id := "cid-1", name := "Acme Graphics ", qualification_score := some 5 }

/-- The colliding duplicate with the higher initial score. -/
def dupCompanyB : CompanyRec :=
  { id := "cid-2", name := "acme graphics", qualification_score := some 7 }

/-- A company file on disk with every optional key absent. -/
def emptyNameFile : CompanyFile := {}

theorem mem_insertOrd {le : α → α → Bool} {x a : α} {l : List α} :
    a ∈ insertOrd le x l ↔ a = x ∨ a ∈ l := by
  induction l with
  | nil => simp [insertOrd]
  | cons y ys ih =>
    simp only [insertOrd]
    by_cases h : le x y = true
    · simp [h]
    · simp [h, ih]
      tauto

theorem mem_insSort {le : α → α → Bool} {a : α} {l : List α} :
    a ∈ insSort le l ↔ a ∈ l := by
  induction l with
  | nil => simp [insSort]
  | cons x xs ih =>
    simp [insSort, mem_insertOrd, ih]

theorem is_budget_available_iff (ledger : List UsageRecord) (module : String)
    (cost : ℚ) :
    is_budget_available ledger module cost = true ↔
      moduleSpend ledger module + cost ≤
          200 * ((BUDGET_ALLOCATION.lookup module).getD 0) ∨
        cost ≤ 200 * ((BUDGET_ALLOCATION.lookup "buffer").getD 0) -
          (totalSpend ledger -
            (nonBufferModules.map (fun m => moduleSpend ledger m)).sum) := by
  unfold is_budget_available
  by_cases h : moduleSpend ledger module + cost ≤
      200 * ((BUDGET_ALLOCATION.lookup module).getD 0)
  · simp [h]
  · simp [h, ge_iff_le]

theorem erSpend20_module : erSpend20.module = "event_research" := rfl

theorem erSpend20_cost : erSpend20.total_cost_usd = 20 := by
  have h : erSpend20.total_cost_usd =
      (2000000 : ℚ) / 1000 * 0.01 + (0 : ℚ) / 1000 * 0.03 := rfl
  rw [h]; norm_num

theorem erSpend40_module : erSpend40.module = "event_research" := rfl

theorem erSpend40_cost : erSpend40.total_cost_usd = 40 := by
  have h : erSpend40.total_cost_usd =
      (4000000 : ℚ) / 1000 * 0.01 + (0 : ℚ) / 1000 * 0.03 := rfl
  rw [h]; norm_num

theorem miscSpend40_module : miscSpend40.module = "misc" := rfl

theorem miscSpend40_cost : miscSpend40.total_cost_usd = 40 := by
  have h : miscSpend40.total_cost_usd =
      (4000000 : ℚ) / 1000 * 0.01 + (0 : ℚ) / 1000 * 0.03 := rfl
  rw [h]; norm_num

theorem siSpend30_module : siSpend30.module = "stakeholder_identification" :=
  rfl

theorem siSpend30_cost : siSpend30.total_cost_usd = 30 := by
  have h : siSpend30.total_cost_usd =
      (3000000 : ℚ) / 1000 * 0.01 + (0 : ℚ) / 1000 * 0.03 := rfl
  rw [h]; norm_num

theorem alloc_event_research :
    BUDGET_ALLOCATION.lookup "event_research" = some 0.10 := rfl

theorem alloc_stakeholder :
    BUDGET_ALLOCATION.lookup "stakeholder_identification" = some 0.15 := rfl

theorem alloc_buffer : BUDGET_ALLOCATION.lookup "buffer" = some 0.20 := rfl

theorem nonBufferModules_eq :
    nonBufferModules =
      ["event_research", "company_analysis", "stakeholder_identification",
       "outreach_generation"] := rfl

/-- C1: on the embedded `is_budget_available`, a run of individually approved
event-research spends reaches 180 USD of recorded total spend (20 USD inside
the module allocation, then four 40 USD borrows approved against the
buffer), and the next 40 USD request is still approved even though it pushes
total recorded spend to 220 USD, beyond the 200 USD total budget: buffer use
is computed as total spend minus the non-buffer module spends, so spend a
stage borrows from the buffer — being logged under the module name of the
stage itself — never depletes the buffer.  This refutes the claim that approval
implies total spend plus estimated cost stays within 200 USD. -/
theorem C1_budget_overrun_despite_approvals :
    is_budget_available [] "event_research" 20 = true ∧
    is_budget_available (erLedger 0) "event_research" 40 = true ∧
    is_budget_available (erLedger 1) "event_research" 40 = true ∧
    is_budget_available (erLedger 2) "event_research" 40 = true ∧
    is_budget_available (erLedger 3) "event_research" 40 = true ∧
    totalSpend (erLedger 4) = 180 ∧
    is_budget_available (erLedger 4) "event_research" 40 = true ∧
    totalSpend (erLedger 4) + 40 > 200 := by
  have htot : totalSpend (erLedger 4) = 180 := by
    simp [totalSpend, erLedger, List.replicate, erSpend20_cost, erSpend40_cost]
    norm_num
  refine ⟨?_, ?_, ?_, ?_, ?_, htot, ?_, ?_⟩ <;>
    first
      | (rw [htot]; norm_num)
      | (rw [is_budget_available_iff, alloc_event_research, alloc_buffer,
          nonBufferModules_eq]
         simp [moduleSpend, totalSpend, erLedger, List.replicate,
           erSpend20_module, erSpend20_cost, erSpend40_module, erSpend40_cost]
         norm_num)

/-- C2: `calculate_lead_score` does not stay on the 0-10 scale and is not
the renormalized weighted average: on the single-criterion map
(industry_relevance, 9) it returns 90, the renormalized average 9 scaled by
the stray times-10 factor of line 42 of src/utils/lead_scoring.py. -/
theorem C2_lead_score_escapes_scale :
    calculate_lead_score [("industry_relevance", 9)] = 90 ∧
    ¬ calculate_lead_score [("industry_relevance", 9)] ≤ 10 := by
  have h : calculate_lead_score [("industry_relevance", 9)] = 90 := by
    simp [calculate_lead_score, LEAD_SCORING_criteria, List.lookup, round1,
      roundHalfToEven]
    norm_num
  exact ⟨h, by rw [h]; norm_num⟩

/-- C3 counterexample: on the scenario-B score map the code returns neither
7.7 nor the priority "qualified" — both parts of the claim fail at this
concrete input. -/
theorem C3_scenarioB_counterexample :
    calculate_lead_score scenarioB ≠ 7.7 ∧
    get_lead_priority (calculate_lead_score scenarioB) ≠ "qualified" := by
  have h : calculate_lead_score scenarioB = 75 := by
    simp [calculate_lead_score, scenarioB, LEAD_SCORING_criteria, List.lookup,
      round1, roundHalfToEven]
    norm_num
  have h2 : get_lead_priority 75 = "exceptional" := by
    simp [get_lead_priority, LEAD_SCORING_thresholds, List.lookup]
    norm_num
  constructor
  · rw [h]; norm_num
  · rw [h, h2]
    decide

/-- C3 amended: on the scenario-B score map under the configured weights,
`calculate_lead_score` returns 75.0 (the weighted average 7.5 scaled by the
stray times-10 factor) and `get_lead_priority` of that result returns
"exceptional". -/
theorem C3_scenarioB_actual :
    calculate_lead_score scenarioB = 75 ∧
    get_lead_priority (calculate_lead_score scenarioB) = "exceptional" := by
  have h : calculate_lead_score scenarioB = 75 := by
    simp [calculate_lead_score, scenarioB, LEAD_SCORING_criteria, List.lookup,
      round1, roundHalfToEven]
    norm_num
  refine ⟨h, ?_⟩
  rw [h]
  simp [get_lead_priority, LEAD_SCORING_thresholds, List.lookup]
  norm_num

/-- C4: both score-to-tier maps are monotonic non-decreasing with inclusive
lower thresholds — `get_lead_priority` at exactly 9, 8, 6 yields
exceptional, high_priority, qualified, the gathering classification at
exactly 8 and 6 yields high and medium — every gathering leaving
`prioritize_gatherings` carries the threshold priority of its relevance
score, and the scenario-A scores 8.3, 6.0, 5.9 classify as high, medium,
low. -/
theorem C4_priority_monotone_inclusive :
    (∀ s1 s2 : ℚ, s1 ≤ s2 →
      tierRank (get_lead_priority s1) ≤ tierRank (get_lead_priority s2)) ∧
    (∀ s1 s2 : ℚ, s1 ≤ s2 →
      gatheringRank (gathering_priority s1) ≤
        gatheringRank (gathering_priority s2)) ∧
    get_lead_priority 9 = "exceptional" ∧
    get_lead_priority 8 = "high_priority" ∧
    get_lead_priority 6 = "qualified" ∧
    (∀ gs : List Gathering, ∀ g ∈ prioritize_gatherings gs,
      g.priority = some (gathering_priority g.relevance_score)) ∧
    gathering_priority 8.3 = "high" ∧
    gathering_priority 8 = "high" ∧
    gathering_priority 6 = "medium" ∧
    gathering_priority 5.9 = "low" := by
  have hg : ∀ s : ℚ, gathering_priority s =
      if s ≥ 8 then "high" else if s ≥ 6 then "medium" else "low" := by
    intro s
    simp [gathering_priority]
    norm_num
  have hl : ∀ s : ℚ, get_lead_priority s =
      if s ≥ 9 then "exceptional" else if s ≥ 8 then "high_priority"
      else if s ≥ 6 then "qualified" else "unqualified" := by
    intro s
    simp [get_lead_priority, LEAD_SCORING_thresholds, List.lookup]
    norm_num
  refine ⟨?_, ?_, ?_, ?_, ?_, ?_, ?_, ?_, ?_, ?_⟩
  · intro s1 s2 h
    rw [hl, hl]
    split_ifs <;> simp [tierRank] <;> linarith
  · intro s1 s2 h
    rw [hg, hg]
    split_ifs <;> simp [gatheringRank] <;> linarith
  · rw [hl]; norm_num
  · rw [hl]; norm_num
  · rw [hl]; norm_num
  · intro gs g hgmem
    simp only [prioritize_gatherings, List.mem_map] at hgmem
    obtain ⟨g0, _, rfl⟩ := hgmem
    rfl
  · rw [hg]; norm_num
  · rw [hg]; norm_num
  · rw [hg]; norm_num
  · rw [hg]; norm_num

/-- C4 witness: the monotonicity parts applied at 5 ≤ 8.5 and 3 ≤ 7, and the
prioritized-gathering part applied to the singleton list holding the
scenario-A 8.3 gathering. -/
theorem C4_priority_monotone_inclusive_witness :
    ((5 : ℚ) ≤ 8.5 ∧
      tierRank (get_lead_priority 5) ≤ tierRank (get_lead_priority 8.5)) ∧
    ((3 : ℚ) ≤ 7 ∧
      gatheringRank (gathering_priority 3) ≤
        gatheringRank (gathering_priority 7)) ∧
    ({ testGathering with
        priority := some (gathering_priority testGathering.relevance_score) } ∈
          prioritize_gatherings [testGathering] ∧
      ({ testGathering with
          priority :=
            some (gathering_priority testGathering.relevance_score) } :
            Gathering).priority =
        some (gathering_priority
          ({ testGathering with
              priority :=
                some (gathering_priority testGathering.relevance_score) } :
              Gathering).relevance_score)) := by
  have hmem : { testGathering with
      priority := some (gathering_priority testGathering.relevance_score) } ∈
        prioritize_gatherings [testGathering] := by
    simp [prioritize_gatherings, insSort, insertOrd]
  refine ⟨⟨by norm_num, ?_⟩, ⟨by norm_num, ?_⟩, hmem, ?_⟩
  · exact C4_priority_monotone_inclusive.1 5 8.5 (by norm_num)
  · exact C4_priority_monotone_inclusive.2.1 3 7 (by norm_num)
  · exact C4_priority_monotone_inclusive.2.2.2.2.2.1 [testGathering] _ hmem

/-- C5: the persisted stakeholder document does not reproduce the score of
the record: for every in-memory stakeholder, the document written by
`save_stakeholder_data` carries `decision_maker_score = 0.0` — the actual
score is passed to the pydantic `Stakeholder` constructor under the
nonexistent field name `relevance_score` and silently dropped — so the
record saved with decision_maker_score 8.5 reloads with 0.0, not 8.5.
Since reading the JSON file back is the identity on the document, the
round-trip loses the score for every record whose score is nonzero. -/
theorem C5_saved_score_dropped :
    (∀ s : StakeholderRecord,
      (save_stakeholder_dict s).decision_maker_score = 0) ∧
    sampleStakeholder85.decision_maker_score = 8.5 ∧
    (save_stakeholder_dict sampleStakeholder85).decision_maker_score ≠
      sampleStakeholder85.decision_maker_score := by
  refine ⟨fun s => rfl, rfl, ?_⟩
  have h1 : (save_stakeholder_dict sampleStakeholder85).decision_maker_score =
      0 := rfl
  have h2 : sampleStakeholder85.decision_maker_score = 8.5 := rfl
  rw [h1, h2]
  norm_num

theorem denyLedgerSI_denied :
    is_budget_available denyLedgerSI "stakeholder_identification" 0.03 =
      false := by
  have h : ¬ is_budget_available denyLedgerSI "stakeholder_identification"
      0.03 = true := by
    rw [is_budget_available_iff, alloc_stakeholder, alloc_buffer,
      nonBufferModules_eq]
    simp [moduleSpend, totalSpend, denyLedgerSI, siSpend30_module,
      siSpend30_cost, miscSpend40_module, miscSpend40_cost]
    norm_num
  cases hb : is_budget_available denyLedgerSI "stakeholder_identification"
      0.03 with
  | false => rfl
  | true => exact absurd hb h

/-- C6 counterexample: on a ledger exhausting the stakeholder-identification
allocation and the buffer, `identify_stakeholders_for_company` returns zero
stakeholders for a qualified company — the budget gate returns the empty
list before any fallback is considered, refuting "the stage never produces
zero stakeholders for a qualified company". -/
theorem C6_zero_stakeholders_on_budget_denial :
    identify_stakeholders_for_company denyLedgerSI sampleCompanyCtx []
      (fun _ => "Alex Smith") (fun _ => "uuid-0") = [] := by
  simp [identify_stakeholders_for_company, denyLedgerSI_denied]

/-- C6 amended: whenever the budget check passes and no stakeholder list is
recoverable from the model response, `identify_stakeholders_for_company`
returns exactly two fallback stakeholders determined by the customer
segment of the company, with the segment-appropriate titles and fixed scores;
when the budget check denies, it returns zero stakeholders instead. -/
theorem C6_fallback_two_stakeholders (ledger : List UsageRecord)
    (company : CompanyCtx) (genName : String → String) (uuids : ℕ → String)
    (hb : is_budget_available ledger "stakeholder_identification" 0.03 =
      true) :
    (identify_stakeholders_for_company ledger company [] genName
        uuids).length = 2 ∧
    (identify_stakeholders_for_company ledger company [] genName uuids).map
        (fun s => (s.title, s.decision_maker_score)) =
      expectedFallbackPairs
        (company.customer_segment.getD "Sign Manufacturing Companies") := by
  have h1 : truthy (.num (9.0 : ℚ)) = true := by
    simp [truthy]
    norm_num
  have h2 : truthy (.num (8.0 : ℚ)) = true := by
    simp [truthy]
    norm_num
  have h3 : truthy (.num (7.5 : ℚ)) = true := by
    simp [truthy]
    norm_num
  have h4 : truthy (.num (8.5 : ℚ)) = true := by
    simp [truthy]
    norm_num
  have h5 : truthy (.num (7.0 : ℚ)) = true := by
    simp [truthy]
    norm_num
  have hmap : (identify_stakeholders_for_company ledger company [] genName
      uuids).map (fun s => (s.title, s.decision_maker_score)) =
      expectedFallbackPairs
        (company.customer_segment.getD "Sign Manufacturing Companies") := by
    simp only [identify_stakeholders_for_company, hb]
    by_cases hs1 : (company.customer_segment.getD
        "Sign Manufacturing Companies") == "Large Format Print Providers"
    · simp [fallback_stakeholders, expectedFallbackPairs, hs1,
        enhanceStakeholder, probeStr, probeScore, probe, List.findSome?,
        List.lookup, nameKeys, titleKeys, scoreKeys, List.enum, h1, h2,
        truthy]
      norm_num
    · by_cases hs2 : (company.customer_segment.getD
          "Sign Manufacturing Companies") == "Fleet Graphics Specialists"
      · simp [fallback_stakeholders, expectedFallbackPairs, hs1, hs2,
          enhanceStakeholder, probeStr, probeScore, probe, List.findSome?,
          List.lookup, nameKeys, titleKeys, scoreKeys, List.enum, h1, h3,
          truthy]
        norm_num
      · simp [fallback_stakeholders, expectedFallbackPairs, hs1, hs2,
          enhanceStakeholder, probeStr, probeScore, probe, List.findSome?,
          List.lookup, nameKeys, titleKeys, scoreKeys, List.enum, h4, h5,
          truthy]
        norm_num
  refine ⟨?_, hmap⟩
  have hlen : ((identify_stakeholders_for_company ledger company [] genName
      uuids).map (fun s => (s.title, s.decision_maker_score))).length =
      (expectedFallbackPairs (company.customer_segment.getD
        "Sign Manufacturing Companies")).length := by rw [hmap]
  rw [List.length_map] at hlen
  rw [hlen]
  unfold expectedFallbackPairs
  split_ifs <;> rfl

/-- C6 witness: the amended theorem applied on the empty ledger (budget
available) and a concrete Large-Format-Print-Providers company. -/
theorem C6_fallback_two_stakeholders_witness :
    is_budget_available [] "stakeholder_identification" 0.03 = true ∧
    (identify_stakeholders_for_company [] sampleCompanyCtx []
        (fun _ => "Alex Smith") (fun _ => "uuid-0")).length = 2 ∧
    (identify_stakeholders_for_company [] sampleCompanyCtx []
        (fun _ => "Alex Smith") (fun _ => "uuid-0")).map
        (fun s => (s.title, s.decision_maker_score)) =
      expectedFallbackPairs
        (sampleCompanyCtx.customer_segment.getD
          "Sign Manufacturing Companies") := by
  have hb : is_budget_available [] "stakeholder_identification" 0.03 =
      true := by
    rw [is_budget_available_iff, alloc_stakeholder, alloc_buffer,
      nonBufferModules_eq]
    simp [moduleSpend, totalSpend]
    norm_num
  exact ⟨hb,
    (C6_fallback_two_stakeholders [] sampleCompanyCtx
      (fun _ => "Alex Smith") (fun _ => "uuid-0") hb).1,
    (C6_fallback_two_stakeholders [] sampleCompanyCtx
      (fun _ => "Alex Smith") (fun _ => "uuid-0") hb).2⟩

/-- C7: every stakeholder record passed on by the outreach loader comes from
the input files with a title different from the literal "Unknown" and a
company name that neither starts with "Company-" nor equals
"Unknown Company" — records violating any of these are excluded from
outreach generation while their file stays in the input list untouched. -/
theorem C7_unusable_stakeholders_filtered (files : List SavedStakeholder)
    (s : SavedStakeholder) (hs : s ∈ load_prioritized_stakeholders files) :
    s ∈ files ∧ s.title ≠ "Unknown" ∧
    pyStartsWith (s.company_name.getD "") "Company-" = false ∧
    s.company_name.getD "" ≠ "Unknown Company" := by
  have h1 : s ∈ files.filter stakeholderUsable := mem_insSort.mp hs
  have h2 := List.mem_filter.mp h1
  refine ⟨h2.1, ?_, ?_, ?_⟩ <;>
    · have h3 := h2.2
      simp [stakeholderUsable] at h3
      tauto

/-- C7 witness: the filter theorem applied to a two-file directory holding
one usable record and one record titled "Unknown". -/
theorem C7_unusable_stakeholders_filtered_witness :
    save_stakeholder_dict sampleStakeholder85 ∈
      load_prioritized_stakeholders
        [save_stakeholder_dict sampleStakeholder85, unusableSaved] ∧
    (save_stakeholder_dict sampleStakeholder85).title ≠ "Unknown" ∧
    pyStartsWith
      ((save_stakeholder_dict sampleStakeholder85).company_name.getD "")
      "Company-" = false ∧
    (save_stakeholder_dict sampleStakeholder85).company_name.getD "" ≠
      "Unknown Company" := by
  have hmem : save_stakeholder_dict sampleStakeholder85 ∈
      load_prioritized_stakeholders
        [save_stakeholder_dict sampleStakeholder85, unusableSaved] := by
    simp [load_prioritized_stakeholders, insSort, insertOrd,
      save_stakeholder_dict, sampleStakeholder85, unusableSaved,
      stakeholderUsable, pyStartsWith, List.filter]
  have h := C7_unusable_stakeholders_filtered
    [save_stakeholder_dict sampleStakeholder85, unusableSaved]
    (save_stakeholder_dict sampleStakeholder85) hmem
  exact ⟨hmem, h.2.1, h.2.2.1, h.2.2.2⟩

theorem denyLedgerER_denied :
    is_budget_available denyLedgerER "event_research" 0.02 = false := by
  have h : ¬ is_budget_available denyLedgerER "event_research" 0.02 =
      true := by
    rw [is_budget_available_iff, alloc_event_research, alloc_buffer,
      nonBufferModules_eq]
    simp [moduleSpend, totalSpend, denyLedgerER, erSpend20_module,
      erSpend20_cost, miscSpend40_module, miscSpend40_cost]
    norm_num
  cases hb : is_budget_available denyLedgerER "event_research" 0.02 with
  | false => rfl
  | true => exact absurd hb h

/-- C8: when the budget check denies the initial real-time-search query, the
embedded `discover_industry_gatherings` returns the empty list — the early
return precedes the merge of the curated seeds — and
`run_event_association_research` then exits without producing any output,
although four curated seed events (fixed relevance 9.0) and six curated seed
associations (fixed relevance 8.5) were available.  This refutes the claim
that on budget denial the run still merges and outputs the curated seed
data. -/
theorem C8_seeds_lost_on_budget_denial :
    is_budget_available denyLedgerER "event_research" 0.02 = false ∧
    discover_industry_gatherings denyLedgerER [] = [] ∧
    run_event_association_research denyLedgerER [] id none = none ∧
    seedEventGatherings.map (fun g => g.relevance_score) =
      [9.0, 9.0, 9.0, 9.0] ∧
    seedAssociationGatherings.map (fun g => g.relevance_score) =
      [8.5, 8.5, 8.5, 8.5, 8.5, 8.5] := by
  have hd : discover_industry_gatherings denyLedgerER [] = [] := by
    simp [discover_industry_gatherings, denyLedgerER_denied]
  refine ⟨denyLedgerER_denied, hd, ?_, ?_, ?_⟩
  · simp [run_event_association_research, hd]
  · simp [seedEventGatherings, key_industry_events_2024]
  · simp [seedAssociationGatherings, key_industry_associations]


theorem mem_insertCo {acc : List (List Char × CompanyRec)}
    {k : List Char} {c : CompanyRec} {p : List Char × CompanyRec}
    (h : p ∈ insertCo acc k c) : p ∈ acc ∨ p = (k, c) := by
  induction acc with
  | nil =>
    simp [insertCo] at h
    simp [h]
  | cons q rest ih =>
    obtain ⟨k', c'⟩ := q
    by_cases hk : k' = k
    · subst hk
      simp [insertCo] at h
      by_cases hs : scoreD c' < scoreD c
      · simp [hs] at h
        rcases h with h | h
        · right; simp [h]
        · left; simp [h]
      · simp [hs] at h
        rcases h with h | h
        · left; simp [h]
        · left; simp [h]
    · simp [insertCo, hk] at h
      rcases h with h | h
      · left; simp [h]
      · rcases ih h with h1 | h1
        · left; simp [h1]
        · right; exact h1

theorem keys_insertCo (acc : List (List Char × CompanyRec))
    (k : List Char) (c : CompanyRec) :
    (insertCo acc k c).map Prod.fst =
      if k ∈ acc.map Prod.fst then acc.map Prod.fst
      else acc.map Prod.fst ++ [k] := by
  induction acc with
  | nil => simp [insertCo]
  | cons q rest ih =>
    obtain ⟨k', c'⟩ := q
    by_cases hk : k' = k
    · subst hk
      have hm : k' ∈ ((k', c') :: rest).map Prod.fst := by
        rw [List.map_cons]
        exact List.mem_cons_self _ _
      rw [if_pos hm]
      by_cases hs : scoreD c' < scoreD c
      · simp only [insertCo, eq_self_iff_true, if_true, if_pos hs,
          List.map_cons]
      · simp only [insertCo, eq_self_iff_true, if_true, if_neg hs,
          List.map_cons]
    · simp only [insertCo, if_neg hk, List.map_cons, ih]
      by_cases hm : k ∈ rest.map Prod.fst
      · have hm2 : k ∈ k' :: rest.map Prod.fst := List.mem_cons_of_mem _ hm
        rw [if_pos hm, if_pos hm2]
      · have hnotin : ¬ k ∈ k' :: rest.map Prod.fst := by
          intro hcon
          rcases List.mem_cons.mp hcon with h | h
          · exact hk h.symm
          · exact hm h
        rw [if_neg hm, if_neg hnotin, List.cons_append]

theorem nodup_keys_insertCo {acc : List (List Char × CompanyRec)}
    {k : List Char} {c : CompanyRec}
    (h : (acc.map Prod.fst).Nodup) :
    ((insertCo acc k c).map Prod.fst).Nodup := by
  rw [keys_insertCo]
  by_cases hm : k ∈ acc.map Prod.fst
  · rw [if_pos hm]; exact h
  · rw [if_neg hm]
    rw [List.nodup_append]
    exact ⟨h, List.nodup_singleton k, by
      intro a ha hmem
      rcases List.mem_singleton.mp hmem with rfl
      exact hm ha⟩

theorem keys_insertCo_superset {acc : List (List Char × CompanyRec)}
    {k q : List Char} {c : CompanyRec}
    (h : q ∈ acc.map Prod.fst) : q ∈ (insertCo acc k c).map Prod.fst := by
  rw [keys_insertCo]
  by_cases hm : k ∈ acc.map Prod.fst
  · rw [if_pos hm]; exact h
  · rw [if_neg hm]; exact List.mem_append_left _ h

theorem key_mem_insertCo (acc : List (List Char × CompanyRec))
    (k : List Char) (c : CompanyRec) :
    k ∈ (insertCo acc k c).map Prod.fst := by
  rw [keys_insertCo]
  by_cases hm : k ∈ acc.map Prod.fst
  · rw [if_pos hm]; exact hm
  · rw [if_neg hm]
    exact List.mem_append_right _ (List.mem_singleton_self k)

theorem insertCo_fresh {acc : List (List Char × CompanyRec)}
    {k : List Char} {c : CompanyRec}
    (h : ¬ k ∈ acc.map Prod.fst) : insertCo acc k c = acc ++ [(k, c)] := by
  induction acc with
  | nil => simp [insertCo]
  | cons q rest ih =>
    obtain ⟨k', c'⟩ := q
    have hk : ¬ k' = k := by
      intro hcon
      exact h (by rw [List.map_cons, hcon]; exact List.mem_cons_self _ _)
    have hrest : ¬ k ∈ rest.map Prod.fst := by
      intro hcon
      exact h (by rw [List.map_cons]; exact List.mem_cons_of_mem _ hcon)
    simp only [insertCo, if_neg hk, ih hrest, List.cons_append]

theorem insertCo_dominates (c : CompanyRec) (done : List CompanyRec) :
    ∀ acc : List (List Char × CompanyRec),
      (acc.map Prod.fst).Nodup →
      (∀ p ∈ acc, ∀ x ∈ done, normName x.name = p.1 → scoreD x ≤ scoreD p.2) →
      (∀ x ∈ done, normName x.name = normName c.name →
        normName c.name ∈ acc.map Prod.fst) →
      ∀ p ∈ insertCo acc (normName c.name) c, ∀ x ∈ done ++ [c],
        normName x.name = p.1 → scoreD x ≤ scoreD p.2 := by
  intro acc
  induction acc with
  | nil =>
    intro _ _ hcov p hp x hx hkey
    simp only [insertCo, List.mem_singleton] at hp
    subst hp
    rcases List.mem_append.mp hx with hxd | hxc
    · exact absurd (hcov x hxd hkey) (List.not_mem_nil _)
    · rcases List.mem_singleton.mp hxc with rfl
      exact le_refl _
  | cons q rest ih =>
    obtain ⟨k', c'⟩ := q
    intro hnd hdom hcov p hp x hx hkey
    have hndrest : (rest.map Prod.fst).Nodup := by
      rw [List.map_cons] at hnd
      exact (List.nodup_cons.mp hnd).2
    have hknotin : ¬ k' ∈ rest.map Prod.fst := by
      rw [List.map_cons] at hnd
      exact (List.nodup_cons.mp hnd).1
    by_cases hk : k' = normName c.name
    · subst hk
      simp only [insertCo, eq_self_iff_true, if_true] at hp
      rcases List.mem_cons.mp hp with hphead | hptail
      · by_cases hs : scoreD c' < scoreD c
        · rw [if_pos hs] at hphead
          subst hphead
          rcases List.mem_append.mp hx with hxd | hxc
          · exact le_trans
              (hdom (normName c.name, c') (List.mem_cons_self _ _) x hxd hkey)
              (le_of_lt hs)
          · rcases List.mem_singleton.mp hxc with rfl
            exact le_refl _
        · rw [if_neg hs] at hphead
          subst hphead
          rcases List.mem_append.mp hx with hxd | hxc
          · exact hdom (normName c.name, c') (List.mem_cons_self _ _) x hxd hkey
          · rcases List.mem_singleton.mp hxc with rfl
            exact le_of_not_lt hs
      · rcases List.mem_append.mp hx with hxd | hxc
        · exact hdom p (List.mem_cons_of_mem _ hptail) x hxd hkey
        · rcases List.mem_singleton.mp hxc with rfl
          exfalso
          have hpk : p.1 ∈ rest.map Prod.fst := List.mem_map_of_mem _ hptail
          rw [← hkey] at hpk
          exact hknotin hpk
    · simp only [insertCo, if_neg hk] at hp
      rcases List.mem_cons.mp hp with hphead | hptail
      · subst hphead
        rcases List.mem_append.mp hx with hxd | hxc
        · exact hdom (k', c') (List.mem_cons_self _ _) x hxd hkey
        · rcases List.mem_singleton.mp hxc with rfl
          exact absurd hkey.symm hk
      · refine ih hndrest ?_ ?_ p hptail x hx hkey
        · intro p2 hp2 x2 hx2 hkey2
          exact hdom p2 (List.mem_cons_of_mem _ hp2) x2 hx2 hkey2
        · intro x2 hx2 hkey2
          have := hcov x2 hx2 hkey2
          rw [List.map_cons] at this
          rcases List.mem_cons.mp this with heq | hmem
          · exact absurd heq.symm hk
          · exact hmem

theorem dedup_fold_inv (cs : List CompanyRec) :
    ∀ (acc : List (List Char × CompanyRec)) (done : List CompanyRec),
      (∀ p ∈ acc, p.1 = normName p.2.name) →
      (acc.map Prod.fst).Nodup →
      (∀ p ∈ acc, ∀ x ∈ done, normName x.name = p.1 → scoreD x ≤ scoreD p.2) →
      (∀ x ∈ done, normName x.name ∈ acc.map Prod.fst) →
      (∀ p ∈ cs.foldl (fun a c => insertCo a (normName c.name) c) acc,
          p.1 = normName p.2.name) ∧
        ((cs.foldl (fun a c => insertCo a (normName c.name) c) acc).map
          Prod.fst).Nodup ∧
        (∀ p ∈ cs.foldl (fun a c => insertCo a (normName c.name) c) acc,
          ∀ x ∈ done ++ cs, normName x.name = p.1 →
            scoreD x ≤ scoreD p.2) := by
  induction cs with
  | nil =>
    intro acc done hself hnd hdom hcov
    simp only [List.foldl_nil, List.append_nil]
    exact ⟨hself, hnd, hdom⟩
  | cons c cs ih =>
    intro acc done hself hnd hdom hcov
    simp only [List.foldl_cons]
    have hself2 : ∀ p ∈ insertCo acc (normName c.name) c,
        p.1 = normName p.2.name := by
      intro p hp
      rcases mem_insertCo hp with h | h
      · exact hself p h
      · rw [h]
    have hnd2 : ((insertCo acc (normName c.name) c).map Prod.fst).Nodup :=
      nodup_keys_insertCo hnd
    have hdom2 : ∀ p ∈ insertCo acc (normName c.name) c,
        ∀ x ∈ done ++ [c], normName x.name = p.1 →
          scoreD x ≤ scoreD p.2 := by
      refine insertCo_dominates c done acc hnd hdom ?_
      intro x hx hkey
      rw [← hkey]
      exact hcov x hx
    have hcov2 : ∀ x ∈ done ++ [c],
        normName x.name ∈ (insertCo acc (normName c.name) c).map Prod.fst := by
      intro x hx
      rcases List.mem_append.mp hx with hxd | hxc
      · exact keys_insertCo_superset (hcov x hxd)
      · rcases List.mem_singleton.mp hxc with rfl
        exact key_mem_insertCo acc (normName x.name) x
    have hres := ih (insertCo acc (normName c.name) c) (done ++ [c])
      hself2 hnd2 hdom2 hcov2
    refine ⟨hres.1, hres.2.1, ?_⟩
    intro p hp x hx hkey
    refine hres.2.2 p hp x ?_ hkey
    rw [List.append_assoc]
    exact hx

theorem dedup_fold_fresh (cs : List CompanyRec) :
    ∀ acc : List (List Char × CompanyRec),
      (acc.map Prod.fst ++ cs.map (fun c => normName c.name)).Nodup →
      cs.foldl (fun a c => insertCo a (normName c.name) c) acc =
        acc ++ cs.map (fun c => (normName c.name, c)) := by
  induction cs with
  | nil =>
    intro acc _
    simp
  | cons c cs ih =>
    intro acc hnd
    have hfresh : ¬ normName c.name ∈ acc.map Prod.fst := by
      intro hcon
      rcases List.nodup_append.mp hnd with ⟨_, _, hdisj⟩
      exact hdisj hcon (by
        rw [List.map_cons]
        exact List.mem_cons_self _ _)
    simp only [List.foldl_cons, insertCo_fresh hfresh]
    have hnd2 : ((acc ++ [(normName c.name, c)]).map Prod.fst ++
        cs.map (fun c => normName c.name)).Nodup := by
      rw [List.map_append, List.append_assoc]
      rw [List.map_cons] at hnd
      have : acc.map Prod.fst ++ normName c.name ::
          cs.map (fun c => normName c.name) =
          acc.map Prod.fst ++ ([(normName c.name, c)].map Prod.fst ++
            cs.map (fun c => normName c.name)) := by
        simp
      rw [← this]
      exact hnd
    rw [ih (acc ++ [(normName c.name, c)]) hnd2, List.append_assoc,
      List.map_cons, List.singleton_append]

/-- C9: the cross-gathering company deduplication keyed on the trimmed,
lowercased name is idempotent — merging the merged output again returns it
unchanged — and every retained record carries the maximum initial
qualification score of its name group. -/
theorem C9_dedup_idempotent_max (cs : List CompanyRec) :
    dedup_companies (dedup_companies cs) = dedup_companies cs ∧
    (∀ c ∈ dedup_companies cs, ∀ x ∈ cs,
      normName x.name = normName c.name → scoreD x ≤ scoreD c) := by
  have hinv := dedup_fold_inv cs [] []
    (by intro p hp; exact absurd hp (List.not_mem_nil _))
    (by simp)
    (by intro p hp; exact absurd hp (List.not_mem_nil _))
    (by intro x hx; exact absurd hx (List.not_mem_nil _))
  have hself := hinv.1
  have hnd := hinv.2.1
  have hdom := hinv.2.2
  constructor
  · have hkeys : ((dedup_companies cs).map
        (fun c => normName c.name)).Nodup := by
      have hmapeq : (dedup_companies cs).map (fun c => normName c.name) =
          (cs.foldl (fun a c => insertCo a (normName c.name) c) []).map
            Prod.fst := by
        have h0 : dedup_companies cs =
            (cs.foldl (fun a c => insertCo a (normName c.name) c) []).map
              (fun p => p.2) := rfl
        rw [h0, List.map_map]
        refine List.map_congr_left ?_
        intro p hp
        exact (hself p hp).symm
      rw [hmapeq]
      exact hnd
    have h1 : dedup_companies (dedup_companies cs) =
        ((dedup_companies cs).foldl
          (fun a c => insertCo a (normName c.name) c) []).map
            (fun p => p.2) := rfl
    rw [h1, dedup_fold_fresh (dedup_companies cs) [] (by simpa using hkeys)]
    simp only [List.nil_append, List.map_map]
    have h2 : (dedup_companies cs).map
        ((fun p => p.2) ∘ fun c => ((normName c.name, c) :
          List Char × CompanyRec)) = (dedup_companies cs).map id := rfl
    rw [h2, List.map_id]
  · intro c hc x hx hkey
    have hc2 : c ∈ (cs.foldl (fun a c => insertCo a (normName c.name) c)
        []).map (fun p => p.2) := hc
    rcases List.mem_map.mp hc2 with ⟨p, hp, rfl⟩
    have hx2 : x ∈ ([] : List CompanyRec) ++ cs := by simpa using hx
    have hkey2 : normName x.name = p.1 := by
      rw [hself p hp]
      exact hkey
    exact hdom p hp x hx2 hkey2

/-- C9 witness: the max-score part applied to a concrete pair of companies
whose names collide after normalization; the retained record is the
higher-scored one. -/
theorem C9_dedup_idempotent_max_witness :
    dupCompanyB ∈ dedup_companies [dupCompanyA, dupCompanyB] ∧
    dupCompanyA ∈ [dupCompanyA, dupCompanyB] ∧
    normName dupCompanyA.name = normName dupCompanyB.name ∧
    scoreD dupCompanyA ≤ scoreD dupCompanyB := by
  have hmem : dupCompanyB ∈ dedup_companies [dupCompanyA, dupCompanyB] := by
    decide
  have hmemA : dupCompanyA ∈ [dupCompanyA, dupCompanyB] :=
    List.mem_cons_self _ _
  have hkey : normName dupCompanyA.name = normName dupCompanyB.name := by
    decide
  exact ⟨hmem, hmemA, hkey,
    (C9_dedup_idempotent_max [dupCompanyA, dupCompanyB]).2 dupCompanyB hmem
      dupCompanyA hmemA hkey⟩


theorem synthCompanyName_ne_empty (stem : String) :
    synthCompanyName stem ≠ "" := by
  intro h
  have h2 := congrArg String.data h
  simp [synthCompanyName] at h2

theorem pyStartsWith_synthCompanyName (stem : String) :
    pyStartsWith (synthCompanyName stem) "Company-" = true := by
  simp [pyStartsWith, synthCompanyName, List.isPrefixOf_iff_prefix]

/-- C10: every company record returned by `load_qualified_companies` has a
non-empty name; a file whose name is missing, empty, or literally
"Unknown Company" gets the synthesized name "Company-" followed by the last
8 characters of the file stem — a name that matches the placeholder prefix
the downstream filters test with startswith — and a missing id is replaced
by the fresh generated UUID. -/
theorem C10_loaded_companies_repaired :
    (∀ (freshIds : ℕ → String) (files : List (String × CompanyFile)),
      ∀ c ∈ load_qualified_companies freshIds files, c.name ≠ "") ∧
    (∀ (fresh stem : String) (data : CompanyFile),
      (data.name = none ∨ data.name = some "" ∨
        data.name = some "Unknown Company") →
      (load_company_file fresh stem data).name = synthCompanyName stem ∧
        pyStartsWith (load_company_file fresh stem data).name "Company-" =
          true) ∧
    (∀ (fresh stem : String) (data : CompanyFile), data.id = none →
      (load_company_file fresh stem data).id = fresh) := by
  have hsynth : ∀ (fresh stem : String) (data : CompanyFile),
      (data.name = none ∨ data.name = some "" ∨
        data.name = some "Unknown Company") →
      (load_company_file fresh stem data).name = synthCompanyName stem := by
    intro fresh stem data h
    rcases h with h | h | h <;> simp [load_company_file, h]
  refine ⟨?_, ?_, ?_⟩
  · intro freshIds files c hc
    have hc2 : c ∈ (files.enum.map
        (fun p => load_company_file (freshIds p.1) p.2.1 p.2.2)) :=
      mem_insSort.mp hc
    rcases List.mem_map.mp hc2 with ⟨p, _, rfl⟩
    rcases hname : p.2.2.name with _ | n
    · rw [show (load_company_file (freshIds p.1) p.2.1 p.2.2).name =
          synthCompanyName p.2.1 from by simp [load_company_file, hname]]
      exact synthCompanyName_ne_empty _
    · by_cases hbad : n = "" ∨ n = "Unknown Company"
      · rw [show (load_company_file (freshIds p.1) p.2.1 p.2.2).name =
            synthCompanyName p.2.1 from by
              simp [load_company_file, hname, hbad]]
        exact synthCompanyName_ne_empty _
      · rw [show (load_company_file (freshIds p.1) p.2.1 p.2.2).name = n from
            by simp [load_company_file, hname, hbad]]
        intro hcon
        exact hbad (Or.inl hcon)
  · intro fresh stem data h
    refine ⟨hsynth fresh stem data h, ?_⟩
    rw [hsynth fresh stem data h]
    exact pyStartsWith_synthCompanyName stem
  · intro fresh stem data h
    simp [load_company_file, h]

/-- C10 witness: the loader theorem applied to a one-file directory whose
content has no name and no id. -/
theorem C10_loaded_companies_repaired_witness :
    load_company_file "u-1" "abcdef1234567890" emptyNameFile ∈
      load_qualified_companies (fun _ => "u-1")
        [("abcdef1234567890", emptyNameFile)] ∧
    (load_company_file "u-1" "abcdef1234567890" emptyNameFile).name ≠ "" ∧
    emptyNameFile.name = none ∧
    (load_company_file "u-1" "abcdef1234567890" emptyNameFile).name =
      synthCompanyName "abcdef1234567890" ∧
    emptyNameFile.id = none ∧
    (load_company_file "u-1" "abcdef1234567890" emptyNameFile).id = "u-1" := by
  have hmem : load_company_file "u-1" "abcdef1234567890" emptyNameFile ∈
      load_qualified_companies (fun _ => "u-1")
        [("abcdef1234567890", emptyNameFile)] := by decide
  refine ⟨hmem, C10_loaded_companies_repaired.1 (fun _ => "u-1") _ _ hmem, rfl, ?_, rfl,
    C10_loaded_companies_repaired.2.2 "u-1" "abcdef1234567890" emptyNameFile rfl⟩
  exact (C10_loaded_companies_repaired.2.1 "u-1" "abcdef1234567890" emptyNameFile
    (Or.inl rfl)).1
